import Mathlib

/-!
Verification of the `DateHelpers` date-arithmetic module
(`src/datepicker/utils/date-helpers.js`) against its specification.

The module is generic over an injected date adapter.  The adapter itself is an
external collaborator (the spec lists its capability interface in §3 and the
repository does not contain an implementation), so we instantiate the helper
over a concrete reference datetime type `DateT` together with adapter
operations modelled from the spec's description of the capability set.
Months are 0-based (0 = January) to match the JavaScript adapter convention
used by the source (`getMonth`, `setMonth`).
-/

namespace DateHelpers

/-- A concrete calendar date-time: the reference instantiation of the opaque
adapter date type `T`.  `month` is 0-based (0 = January); `day` is 1-based. -/
structure DateT where
  year : Int
  month : Nat
  day : Nat
  hour : Nat
  minute : Nat
  second : Nat
deriving DecidableEq, Repr

/-- Modelled from the spec: Gregorian leap-year rule used by the adapter's
calendar arithmetic. -/
def isLeapYear (y : Int) : Bool :=
  y.emod 4 == 0 && (y.emod 100 != 0 || y.emod 400 == 0)

/-- Modelled from the spec: number of days in the (0-based) month `m` of year
`y` in the adapter's calendar. -/
def daysInMonth (y : Int) (m : Nat) : Nat :=
  match m with
  | 0 => 31
  | 1 => if isLeapYear y then 29 else 28
  | 2 => 31
  | 3 => 30
  | 4 => 31
  | 5 => 30
  | 6 => 31
  | 7 => 31
  | 8 => 30
  | 9 => 31
  | 10 => 30
  | _ => 31

/-- Modelled from the spec: days elapsed since the epoch 1970-01-01 for a
calendar date (standard civil-calendar day count, ignoring time of day). -/
def rataDie (dt : DateT) : Int :=
  let m : Int := (dt.month : Int) + 1
  let y : Int := if m ≤ 2 then dt.year - 1 else dt.year
  let era : Int := y.fdiv 400
  let yoe : Int := y - era * 400
  let mp : Int := if m > 2 then m - 3 else m + 9
  let doy : Int := (153 * mp + 2).fdiv 5 + (dt.day : Int) - 1
  let doe : Int := yoe * 365 + yoe.fdiv 4 - yoe.fdiv 100 + doy
  era * 146097 + doe - 719468

/-- Modelled from the spec: epoch milliseconds of a date-time; the adapter's
millisecond difference (`getDiff`) is the difference of these values. -/
def msOfDate (dt : DateT) : Int :=
  rataDie dt * 86400000 + (dt.hour : Int) * 3600000
    + (dt.minute : Int) * 60000 + (dt.second : Int) * 1000

/-- Modelled from the spec: adapter field extraction — year. -/
def getYear (dt : DateT) : Int := dt.year

/-- Modelled from the spec: adapter field extraction — 0-based month. -/
def getMonth (dt : DateT) : Nat := dt.month

/-- Modelled from the spec: adapter field extraction — 1-based day of month. -/
def getDate (dt : DateT) : Nat := dt.day

/-- Modelled from the spec: adapter field extraction — hours. -/
def getHours (dt : DateT) : Nat := dt.hour

/-- Modelled from the spec: adapter field extraction — minutes. -/
def getMinutes (dt : DateT) : Nat := dt.minute

/-- Modelled from the spec: adapter field extraction — seconds. -/
def getSeconds (dt : DateT) : Nat := dt.second

/-- Modelled from the spec: adapter's raw millisecond difference between two
dates. -/
def getDiff (a b : DateT) : Int := msOfDate a - msOfDate b

/-- Modelled from the spec: adapter comparison — `a` is strictly before `b`. -/
def isBefore (a b : DateT) : Bool := decide (msOfDate a < msOfDate b)

/-- Modelled from the spec: adapter comparison — `a` is strictly after `b`. -/
def isAfter (a b : DateT) : Bool := decide (msOfDate b < msOfDate a)

/-- Modelled from the spec: adapter comparison — same calendar day. -/
def isSameDay (a b : DateT) : Bool := decide (rataDie a = rataDie b)

/-- Modelled from the spec: adapter arithmetic — add `k` calendar months,
clamping the day of month to the target month's length. -/
def addMonths (dt : DateT) (k : Int) : DateT :=
  let t : Int := dt.year * 12 + (dt.month : Int) + k
  let y : Int := t.fdiv 12
  let m : Nat := (t.emod 12).toNat
  { dt with year := y, month := m, day := Nat.min dt.day (daysInMonth y m) }

/-- Modelled from the spec: successor day in the adapter's calendar, rolling
over month and year boundaries. -/
def succDay (dt : DateT) : DateT :=
  if dt.day < daysInMonth dt.year dt.month then
    { dt with day := dt.day + 1 }
  else if dt.month < 11 then
    { dt with month := dt.month + 1, day := 1 }
  else
    { dt with year := dt.year + 1, month := 0, day := 1 }

/-- Modelled from the spec: predecessor day in the adapter's calendar. -/
def predDay (dt : DateT) : DateT :=
  if 1 < dt.day then
    { dt with day := dt.day - 1 }
  else if 0 < dt.month then
    { dt with month := dt.month - 1,
              day := daysInMonth dt.year (dt.month - 1) }
  else
    { dt with year := dt.year - 1, month := 11,
              day := daysInMonth (dt.year - 1) 11 }

/-- Modelled from the spec: adapter arithmetic — add `k` calendar days. -/
def addDays (dt : DateT) (k : Int) : DateT :=
  if k < 0 then predDay^[(-k).toNat] dt else succDay^[k.toNat] dt

/-- Modelled from the spec: adapter construction — start of the month of a
date (day 1, midnight). -/
def startOfMonth (dt : DateT) : DateT :=
  { dt with day := 1, hour := 0, minute := 0, second := 0 }

/-- Modelled from the spec: adapter merging — calendar part of the first
argument combined with the clock part (hours and minutes) of the second;
sub-minute precision is not preserved, which is why the source re-sets
seconds explicitly afterwards. -/
def mergeDateAndTime (d t : DateT) : DateT :=
  { d with hour := t.hour, minute := t.minute }

/-- Modelled from the spec: adapter field mutation — set seconds. -/
def setSeconds (dt : DateT) (s : Nat) : DateT := { dt with second := s }

/-- Modelled from the spec: adapter field mutation — set year. -/
def setYear (dt : DateT) (y : Int) : DateT := { dt with year := y }

/-- Modelled from the spec: adapter field mutation — set the (0-based) month,
clamping the day of month to the target month's length. -/
def setMonth (dt : DateT) (m : Nat) : DateT :=
  { dt with month := m, day := Nat.min dt.day (daysInMonth dt.year m) }

/-- Modelled from the spec: the adapter's current date ("now"), the value the
zero-argument `adapter.date()` call returns; fixed to an arbitrary reference
instant since the helper treats it as an opaque fallback. -/
def refNow : DateT := ⟨2020, 0, 1, 0, 0, 0⟩

/-- Modelled from the spec: `Number(adapter.formatByString(date, 'd'))` — the
day-of-month read back through formatting. -/
def formatDayOfMonth (dt : DateT) : Nat := dt.day

/-- `MINUTE` constant of the source: seconds per minute. -/
def MINUTE : Nat := 60

/-- `HOUR` constant of the source: seconds per hour. -/
def HOUR : Nat := MINUTE * 60

/-- `dateToSeconds` of the source: seconds since midnight. -/
def dateToSeconds (date : DateT) : Nat :=
  let seconds := getSeconds date
  let minutes := getMinutes date * MINUTE
  let hours := getHours date * HOUR
  seconds + minutes + hours

/-- `secondsToHourMinute` of the source: constructs an instant from
`seconds * 1000` epoch milliseconds and reads the UTC hour and minute from it
(the composite of `adapter.date`, `adapter.toJsDate`, `getUTCHours` and
`getUTCMinutes`). -/
def secondsToHourMinute (seconds : Nat) : Nat × Nat :=
  let ms := seconds * 1000
  (ms / 3600000 % 24, ms / 60000 % 60)

/-- `differenceInCalendarMonths` of the source. -/
def differenceInCalendarMonths (fromDate toDate : DateT) : Int :=
  let yearDiff := getYear fromDate - getYear toDate
  let monthDiff := (getMonth fromDate : Int) - (getMonth toDate : Int)
  yearDiff * 12 + monthDiff

/-- `differenceInCalendarDays` of the source: raw millisecond difference
divided by 864e5 (exact rational division, as JavaScript division is not
integer division). -/
def differenceInCalendarDays (fromDate toDate : DateT) : ℚ :=
  let msDiff := getDiff fromDate toDate
  (msDiff : ℚ) / 86400000

/-- `subMonths` of the source. -/
def subMonths (date : DateT) (months : Int) : DateT :=
  addMonths date (months * -1)

/-- `min` of the source: `Array.prototype.reduce` with no initial value over
the is-before comparison; `none` models the `TypeError` JavaScript throws when
reducing an empty array. -/
def min (dates : List DateT) : Option DateT :=
  match dates with
  | [] => none
  | d :: rest =>
    some (rest.foldl (fun minDate date =>
      if isBefore date minDate then date else minDate) d)

/-- `max` of the source: reduce over the is-after comparison; `none` models
the empty-array `TypeError`. -/
def max (dates : List DateT) : Option DateT :=
  match dates with
  | [] => none
  | d :: rest =>
    some (rest.foldl (fun maxDate date =>
      if isAfter date maxDate then date else maxDate) d)

/-- Configuration bag `{minDate?, includeDates?}` of `getEffectiveMinDate`
and `monthDisabledBefore`. -/
structure MinConfig where
  minDate : Option DateT
  includeDates : Option (List DateT)

/-- Configuration bag `{maxDate?, includeDates?}` of `getEffectiveMaxDate`. -/
structure MaxConfig where
  maxDate : Option DateT
  includeDates : Option (List DateT)

/-- Configuration bag `{minDate?, maxDate?}` of `isOutOfBounds`. -/
structure BoundsConfig where
  minDate : Option DateT
  maxDate : Option DateT

/-- Configuration bag of `isDayDisabled`. -/
structure DayConfig where
  minDate : Option DateT
  maxDate : Option DateT
  excludeDates : Option (List DateT)
  includeDates : Option (List DateT)
  filterDate : Option (DateT → Bool)

/-- `getEffectiveMinDate` of the source.  The JavaScript branch structure is
mirrored exactly: a present `includeDates` array is truthy even when empty, so
the first branch fires whenever both fields are supplied; `none` in the result
models the exception thrown by reducing an empty array. -/
def getEffectiveMinDate (cfg : MinConfig) : Option DateT :=
  match cfg.includeDates, cfg.minDate with
  | some inc, some mn =>
    min (inc.filter fun includeDate =>
      decide (0 ≤ differenceInCalendarDays includeDate mn))
  | some inc, none =>
    if inc.length ≠ 0 then min inc else some refNow
  | none, some mn => some mn
  | none, none => some refNow

/-- `getEffectiveMaxDate` of the source.  Unlike the min version, the second
branch tests only presence of `includeDates` (no length check). -/
def getEffectiveMaxDate (cfg : MaxConfig) : Option DateT :=
  match cfg.includeDates, cfg.maxDate with
  | some inc, some mx =>
    max (inc.filter fun includeDate =>
      decide (differenceInCalendarDays includeDate mx ≤ 0))
  | some inc, none => max inc
  | none, some mx => some mx
  | none, none => some refNow

/-- `monthDisabledBefore` of the source. -/
def monthDisabledBefore (day : DateT) (cfg : MinConfig) : Bool :=
  let previousMonth := subMonths day 1
  (match cfg.minDate with
   | some mn => decide (0 < differenceInCalendarMonths mn previousMonth)
   | none => false)
  || (match cfg.includeDates with
      | some inc => inc.all fun includeDate =>
          decide (0 < differenceInCalendarMonths includeDate previousMonth)
      | none => false)
  || false

/-- `setDate` of the source: start of month, merge in the original time,
re-set seconds, then advance `dayNumber - 1` days. -/
def setDate (date : DateT) (dayNumber : Nat) : DateT :=
  let startOfMonthNoTime := startOfMonth date
  let startOfMonthHoursAndMinutes :=
    mergeDateAndTime startOfMonthNoTime date
  let startOfMonthFull :=
    setSeconds startOfMonthHoursAndMinutes (getSeconds date)
  addDays startOfMonthFull ((dayNumber : Int) - 1)

/-- `applyDateToTime` of the source. -/
def applyDateToTime (time : Option DateT) (date : DateT) : DateT :=
  match time with
  | none => date
  | some t =>
    let yearNumber := getYear date
    let monthNumber := getMonth date
    let dayNumber := formatDayOfMonth date
    let yearDate := setYear t yearNumber
    let monthDate := setMonth yearDate monthNumber
    setDate monthDate dayNumber

/-- `isOutOfBounds` of the source. -/
def isOutOfBounds (day : DateT) (cfg : BoundsConfig) : Bool :=
  (match cfg.minDate with
   | some mn => decide (differenceInCalendarDays day mn < 0)
   | none => false)
  || (match cfg.maxDate with
      | some mx => decide (0 < differenceInCalendarDays day mx)
      | none => false)

/-- `isDayDisabled` of the source. -/
def isDayDisabled (day : DateT) (cfg : DayConfig) : Bool :=
  isOutOfBounds day ⟨cfg.minDate, cfg.maxDate⟩
  || (match cfg.excludeDates with
      | some ex => ex.any fun excludeDate => isSameDay day excludeDate
      | none => false)
  || (match cfg.includeDates with
      | some inc => !(inc.any fun includeDate => isSameDay day includeDate)
      | none => false)
  || (match cfg.filterDate with
      | some f => !(f day)
      | none => false)
  || false

/-- The reducer of `min`, abstracted for reasoning: fold of the is-before
comparison against a running minimum. -/
def minFold (acc : DateT) (l : List DateT) : DateT :=
  l.foldl (fun minDate date =>
    if isBefore date minDate then date else minDate) acc

/-- The reducer of `max`, abstracted for reasoning. -/
def maxFold (acc : DateT) (l : List DateT) : DateT :=
  l.foldl (fun maxDate date =>
    if isAfter date maxDate then date else maxDate) acc

/-- 2020-02-15 (month index 1), midnight. -/
def d20200215 : DateT := ⟨2020, 1, 15, 0, 0, 0⟩

/-- 2020-03-01 (month index 2), midnight. -/
def d20200301 : DateT := ⟨2020, 2, 1, 0, 0, 0⟩

/-- 2020-01-05 (month index 0), midnight. -/
def d20200105 : DateT := ⟨2020, 0, 5, 0, 0, 0⟩

/-- 2020-01-10 (month index 0), midnight. -/
def d20200110 : DateT := ⟨2020, 0, 10, 0, 0, 0⟩

/-- 2020-01-15 (month index 0), midnight. -/
def d20200115 : DateT := ⟨2020, 0, 15, 0, 0, 0⟩

/-- 2020-01-20 (month index 0), midnight. -/
def d20200120 : DateT := ⟨2020, 0, 20, 0, 0, 0⟩

/-- 2020-01-10 (month index 0) at 12:00 noon. -/
def d20200110noon : DateT := ⟨2020, 0, 10, 12, 0, 0⟩

theorem diff_days_neg_iff (a b : DateT) :
    differenceInCalendarDays a b < 0 ↔ msOfDate a < msOfDate b := by
  unfold differenceInCalendarDays getDiff
  rw [div_lt_iff₀ (by norm_num : (0:ℚ) < 86400000), zero_mul]
  exact_mod_cast sub_neg

theorem diff_days_pos_iff (a b : DateT) :
    0 < differenceInCalendarDays a b ↔ msOfDate b < msOfDate a := by
  unfold differenceInCalendarDays getDiff
  rw [lt_div_iff₀ (by norm_num : (0:ℚ) < 86400000), zero_mul]
  exact_mod_cast sub_pos

theorem diff_days_nonneg_iff (a b : DateT) :
    0 ≤ differenceInCalendarDays a b ↔ msOfDate b ≤ msOfDate a := by
  unfold differenceInCalendarDays getDiff
  rw [le_div_iff₀ (by norm_num : (0:ℚ) < 86400000), zero_mul]
  exact_mod_cast sub_nonneg

theorem diff_days_nonpos_iff (a b : DateT) :
    differenceInCalendarDays a b ≤ 0 ↔ msOfDate a ≤ msOfDate b := by
  unfold differenceInCalendarDays getDiff
  rw [div_le_iff₀ (by norm_num : (0:ℚ) < 86400000), zero_mul]
  exact_mod_cast sub_nonpos

theorem minFold_spec (l : List DateT) : ∀ acc : DateT,
    (msOfDate (minFold acc l) ≤ msOfDate acc ∧
      ∀ x ∈ l, msOfDate (minFold acc l) ≤ msOfDate x) ∧
    (minFold acc l = acc ∨
      ∃ l1 l2, l = l1 ++ minFold acc l :: l2 ∧
        msOfDate (minFold acc l) < msOfDate acc ∧
        ∀ y ∈ l1, msOfDate (minFold acc l) < msOfDate y) := by
  induction l with
  | nil =>
    intro acc
    exact ⟨⟨le_refl _, by simp⟩, Or.inl rfl⟩
  | cons x xs ih =>
    intro acc
    by_cases hx : msOfDate x < msOfDate acc
    · have hfold : minFold acc (x :: xs) = minFold x xs := by
        simp [minFold, isBefore, hx]
      obtain ⟨⟨hb1, hb2⟩, hpos⟩ := ih x
      rw [hfold]
      refine ⟨⟨le_trans hb1 (le_of_lt hx), ?_⟩, ?_⟩
      · intro z hz
        rcases List.mem_cons.mp hz with h | h
        · exact h ▸ hb1
        · exact hb2 z h
      · rcases hpos with heq | ⟨l1, l2, hsplit, hlt, hall⟩
        · refine Or.inr ⟨[], xs, ?_, ?_, by simp⟩
          · rw [heq]; rfl
          · rw [heq]; exact hx
        · refine Or.inr ⟨x :: l1, l2, ?_, lt_trans hlt hx, ?_⟩
          · rw [List.cons_append, ← hsplit]
          · intro y hy
            rcases List.mem_cons.mp hy with h | h
            · exact h ▸ hlt
            · exact hall y h
    · have hfold : minFold acc (x :: xs) = minFold acc xs := by
        simp [minFold, isBefore, hx]
      obtain ⟨⟨hb1, hb2⟩, hpos⟩ := ih acc
      rw [hfold]
      refine ⟨⟨hb1, ?_⟩, ?_⟩
      · intro z hz
        rcases List.mem_cons.mp hz with h | h
        · exact h ▸ le_trans hb1 (not_lt.mp hx)
        · exact hb2 z h
      · rcases hpos with heq | ⟨l1, l2, hsplit, hlt, hall⟩
        · exact Or.inl heq
        · refine Or.inr ⟨x :: l1, l2, ?_, hlt, ?_⟩
          · rw [List.cons_append, ← hsplit]
          · intro y hy
            rcases List.mem_cons.mp hy with h | h
            · exact h ▸ lt_of_lt_of_le hlt (not_lt.mp hx)
            · exact hall y h

theorem maxFold_spec (l : List DateT) : ∀ acc : DateT,
    (msOfDate acc ≤ msOfDate (maxFold acc l) ∧
      ∀ x ∈ l, msOfDate x ≤ msOfDate (maxFold acc l)) ∧
    (maxFold acc l = acc ∨
      ∃ l1 l2, l = l1 ++ maxFold acc l :: l2 ∧
        msOfDate acc < msOfDate (maxFold acc l) ∧
        ∀ y ∈ l1, msOfDate y < msOfDate (maxFold acc l)) := by
  induction l with
  | nil =>
    intro acc
    exact ⟨⟨le_refl _, by simp⟩, Or.inl rfl⟩
  | cons x xs ih =>
    intro acc
    by_cases hx : msOfDate acc < msOfDate x
    · have hfold : maxFold acc (x :: xs) = maxFold x xs := by
        simp [maxFold, isAfter, hx]
      obtain ⟨⟨hb1, hb2⟩, hpos⟩ := ih x
      rw [hfold]
      refine ⟨⟨le_trans (le_of_lt hx) hb1, ?_⟩, ?_⟩
      · intro z hz
        rcases List.mem_cons.mp hz with h | h
        · exact h ▸ hb1
        · exact hb2 z h
      · rcases hpos with heq | ⟨l1, l2, hsplit, hlt, hall⟩
        · refine Or.inr ⟨[], xs, ?_, ?_, by simp⟩
          · rw [heq]; rfl
          · rw [heq]; exact hx
        · refine Or.inr ⟨x :: l1, l2, ?_, lt_trans hx hlt, ?_⟩
          · rw [List.cons_append, ← hsplit]
          · intro y hy
            rcases List.mem_cons.mp hy with h | h
            · exact h ▸ hlt
            · exact hall y h
    · have hfold : maxFold acc (x :: xs) = maxFold acc xs := by
        simp [maxFold, isAfter, hx]
      obtain ⟨⟨hb1, hb2⟩, hpos⟩ := ih acc
      rw [hfold]
      refine ⟨⟨hb1, ?_⟩, ?_⟩
      · intro z hz
        rcases List.mem_cons.mp hz with h | h
        · exact h ▸ le_trans (not_lt.mp hx) hb1
        · exact hb2 z h
      · rcases hpos with heq | ⟨l1, l2, hsplit, hlt, hall⟩
        · exact Or.inl heq
        · refine Or.inr ⟨x :: l1, l2, ?_, hlt, ?_⟩
          · rw [List.cons_append, ← hsplit]
          · intro y hy
            rcases List.mem_cons.mp hy with h | h
            · exact h ▸ lt_of_le_of_lt (not_lt.mp hx) hlt
            · exact hall y h

theorem min_eq_minFold (d : DateT) (rest : List DateT) :
    min (d :: rest) = some (minFold d rest) := rfl

theorem max_eq_maxFold (d : DateT) (rest : List DateT) :
    max (d :: rest) = some (maxFold d rest) := rfl

theorem min_spec (l : List DateT) (hl : l ≠ []) :
    ∃ m l1 l2, min l = some m ∧ l = l1 ++ m :: l2 ∧
      (∀ x ∈ l, msOfDate m ≤ msOfDate x) ∧
      ∀ y ∈ l1, msOfDate m < msOfDate y := by
  match l with
  | [] => exact absurd rfl hl
  | d :: rest =>
    obtain ⟨⟨hb1, hb2⟩, hpos⟩ := minFold_spec rest d
    refine ⟨minFold d rest, ?_⟩
    rcases hpos with heq | ⟨l1, l2, hsplit, hlt, hall⟩
    · refine ⟨[], rest, min_eq_minFold d rest, by rw [heq]; rfl, ?_, by simp⟩
      intro x hx
      rcases List.mem_cons.mp hx with h | h
      · exact h ▸ hb1
      · exact hb2 x h
    · refine ⟨d :: l1, l2, min_eq_minFold d rest, ?_, ?_, ?_⟩
      · rw [List.cons_append, ← hsplit]
      · intro x hx
        rcases List.mem_cons.mp hx with h | h
        · exact h ▸ hb1
        · exact hb2 x h
      · intro y hy
        rcases List.mem_cons.mp hy with h | h
        · exact h ▸ hlt
        · exact hall y h

theorem max_spec (l : List DateT) (hl : l ≠ []) :
    ∃ m l1 l2, max l = some m ∧ l = l1 ++ m :: l2 ∧
      (∀ x ∈ l, msOfDate x ≤ msOfDate m) ∧
      ∀ y ∈ l1, msOfDate y < msOfDate m := by
  match l with
  | [] => exact absurd rfl hl
  | d :: rest =>
    obtain ⟨⟨hb1, hb2⟩, hpos⟩ := maxFold_spec rest d
    refine ⟨maxFold d rest, ?_⟩
    rcases hpos with heq | ⟨l1, l2, hsplit, hlt, hall⟩
    · refine ⟨[], rest, max_eq_maxFold d rest, by rw [heq]; rfl, ?_, by simp⟩
      intro x hx
      rcases List.mem_cons.mp hx with h | h
      · exact h ▸ hb1
      · exact hb2 x h
    · refine ⟨d :: l1, l2, max_eq_maxFold d rest, ?_, ?_, ?_⟩
      · rw [List.cons_append, ← hsplit]
      · intro x hx
        rcases List.mem_cons.mp hx with h | h
        · exact h ▸ hb1
        · exact hb2 x h
      · intro y hy
        rcases List.mem_cons.mp hy with h | h
        · exact h ▸ hlt
        · exact hall y h

theorem min_isSome (l : List DateT) (hl : l ≠ []) :
    (min l).isSome = true := by
  match l with
  | [] => exact absurd rfl hl
  | d :: rest => rfl

theorem max_isSome (l : List DateT) (hl : l ≠ []) :
    (max l).isSome = true := by
  match l with
  | [] => exact absurd rfl hl
  | d :: rest => rfl

theorem succDay_iterate (k : Nat) :
    ∀ (y : Int) (mo j h mi s : Nat), 1 ≤ j → j + k ≤ daysInMonth y mo →
      succDay^[k] ⟨y, mo, j, h, mi, s⟩ = ⟨y, mo, j + k, h, mi, s⟩ := by
  induction k with
  | zero => intro y mo j h mi s _ _; rfl
  | succ k ih =>
    intro y mo j h mi s h1 h2
    rw [Function.iterate_succ_apply]
    have hj : j < daysInMonth y mo := by omega
    have hstep : succDay ⟨y, mo, j, h, mi, s⟩ = ⟨y, mo, j + 1, h, mi, s⟩ := by
      simp [succDay, hj]
    rw [hstep, ih y mo (j + 1) h mi s (by omega) (by omega)]
    congr 1
    omega

theorem setDate_normal_form (date : DateT) (n : Nat) (h1 : 1 ≤ n)
    (h2 : n ≤ daysInMonth date.year date.month) :
    setDate date n =
      ⟨date.year, date.month, n, date.hour, date.minute, date.second⟩ := by
  have hbase : setDate date n =
      addDays ⟨date.year, date.month, 1, date.hour, date.minute, date.second⟩
        ((n : Int) - 1) := rfl
  rw [hbase]
  unfold addDays
  rw [if_neg (by omega : ¬ ((n : Int) - 1 < 0))]
  rw [show ((n : Int) - 1).toNat = n - 1 by omega]
  rw [succDay_iterate (n - 1) date.year date.month 1 date.hour date.minute
    date.second (le_refl 1) (by omega)]
  congr 1
  omega


/-- C1 counterexample: for `day = 2020-03-01` and `minDate = 2020-02-15`,
`monthDisabledBefore` returns `false`, not `true` as the claim states: the
previous month is February 2020, the same calendar month as `minDate`, so the
`differenceInCalendarMonths(minDate, previousMonth) > 0` test fails. -/
theorem c1_counterexample :
    monthDisabledBefore d20200301 ⟨some d20200215, none⟩ = false := by decide

/-- C1 (amended): for `day = 2020-03-01` and `minDate = 2020-02-15`,
`monthDisabledBefore(day, {minDate})` returns `false`, the previous month
being February 2020 with `differenceInCalendarMonths(minDate, previousMonth)
= 0`, so the `> 0` condition fails — exactly the worked computation the spec
itself carries out. -/
theorem c1_monthDisabledBefore_false :
    monthDisabledBefore d20200301 ⟨some d20200215, none⟩ = false ∧
    differenceInCalendarMonths d20200215 (subMonths d20200301 1) = 0 := by
  decide

/-- C8: `applyDateToTime` is the identity on its date argument when no time
is given: for every date, `applyDateToTime undefined date` returns the date
itself, unchanged. -/
theorem c8_applyDateToTime_identity :
    ∀ date : DateT, applyDateToTime none date = date := fun _ => rfl

/-- C9: when neither a bound nor an includeDates list is supplied,
`getEffectiveMinDate` and `getEffectiveMaxDate` signal no error and return
the adapter's current date ("now") as a silent fallback. -/
theorem c9_effective_bounds_fallback_now :
    getEffectiveMinDate ⟨none, none⟩ = some refNow ∧
    getEffectiveMaxDate ⟨none, none⟩ = some refNow := ⟨rfl, rfl⟩

/-- C10: with an empty configuration (no bounds, no exclude/include lists,
no filter), `isDayDisabled` and `isOutOfBounds` return the boolean `false`
for every day: with no constraints supplied, no day is disabled or out of
bounds. -/
theorem c10_empty_config_never_disabled :
    ∀ day : DateT,
      isDayDisabled day ⟨none, none, none, none, none⟩ = false ∧
      isOutOfBounds day ⟨none, none⟩ = false := fun _ => ⟨rfl, rfl⟩

/-- C4 counterexample: `isOutOfBounds` does not work at calendar-day
granularity.  For `day = 2020-01-10T12:00` and `maxDate = 2020-01-10T00:00`
— the same calendar day, so the claim says the day is in bounds — the
function returns `true`, because the adapter's millisecond difference is
positive. -/
theorem c4_counterexample :
    isOutOfBounds d20200110noon ⟨none, some d20200110⟩ = true ∧
    rataDie d20200110noon = rataDie d20200110 := by
  refine ⟨?_, by decide⟩
  show (false ||
    decide (0 < differenceInCalendarDays d20200110noon d20200110)) = true
  rw [Bool.false_or, decide_eq_true_eq, diff_days_pos_iff]
  decide

/-- C4 (amended): `isOutOfBounds(day, {minDate, maxDate})` is true if and
only if day is strictly before `minDate` or strictly after `maxDate` at the
adapter's exact millisecond-instant granularity (time-of-day included; a day
whose instant equals a supplied bound is in bounds); in particular, with
`minDate = maxDate = d` it is false exactly when day's instant equals d's
instant. -/
theorem c4_isOutOfBounds_exact_instant :
    (∀ (day : DateT) (cfg : BoundsConfig),
      isOutOfBounds day cfg = true ↔
        (∃ mn, cfg.minDate = some mn ∧ msOfDate day < msOfDate mn) ∨
        (∃ mx, cfg.maxDate = some mx ∧ msOfDate mx < msOfDate day)) ∧
    (∀ day d : DateT,
      isOutOfBounds day ⟨some d, some d⟩ = false ↔
        msOfDate day = msOfDate d) := by
  constructor
  · intro day cfg
    obtain ⟨mn, mx⟩ := cfg
    cases mn with
    | none =>
      cases mx with
      | none => simp [isOutOfBounds]
      | some b => simp [isOutOfBounds, diff_days_pos_iff]
    | some a =>
      cases mx with
      | none => simp [isOutOfBounds, diff_days_neg_iff]
      | some b => simp [isOutOfBounds, diff_days_neg_iff, diff_days_pos_iff]
  · intro day d
    simp only [isOutOfBounds, Bool.or_eq_false_iff, decide_eq_false_iff_not,
      diff_days_neg_iff, diff_days_pos_iff, not_lt]
    omega

/-- C7: round-trip — for any date with a zero seconds field (and in-range
hour and minute), `secondsToHourMinute (dateToSeconds d)` recovers exactly
d's (hour, minute) pair. -/
theorem c7_seconds_roundtrip (d : DateT) (hs : d.second = 0)
    (hh : d.hour < 24) (hm : d.minute < 60) :
    secondsToHourMinute (dateToSeconds d) = (d.hour, d.minute) := by
  simp only [secondsToHourMinute, dateToSeconds, getSeconds, getMinutes,
    getHours, MINUTE, HOUR, hs, Prod.mk.injEq]
  constructor
  · omega
  · omega

/-- C7 witness: the round-trip at the concrete date 2020-02-20T07:30:00. -/
theorem c7_seconds_roundtrip_witness :
    secondsToHourMinute (dateToSeconds ⟨2020, 1, 20, 7, 30, 0⟩) = (7, 30) :=
  c7_seconds_roundtrip ⟨2020, 1, 20, 7, 30, 0⟩ rfl (by decide) (by decide)

/-- C5: for every date and every `dayNumber` between 1 and the number of
days in that date's month, `setDate date dayNumber` returns a date whose
day-of-month (read via the adapter) is `dayNumber` and whose month, year,
hours, minutes and seconds equal those of the original date. -/
theorem c5_setDate_fields (date : DateT) (n : Nat) (h1 : 1 ≤ n)
    (h2 : n ≤ daysInMonth date.year date.month) :
    getDate (setDate date n) = n ∧
    getMonth (setDate date n) = getMonth date ∧
    getYear (setDate date n) = getYear date ∧
    getHours (setDate date n) = getHours date ∧
    getMinutes (setDate date n) = getMinutes date ∧
    getSeconds (setDate date n) = getSeconds date := by
  rw [setDate_normal_form date n h1 h2]
  exact ⟨rfl, rfl, rfl, rfl, rfl, rfl⟩

/-- C5 witness: `setDate` at 2020-02-20T07:30:45 with day number 29 (February
2020 has 29 days). -/
theorem c5_setDate_fields_witness :
    (1 ≤ 29 ∧ 29 ≤ daysInMonth 2020 1) ∧
    (getDate (setDate ⟨2020, 1, 20, 7, 30, 45⟩ 29) = 29 ∧
     getMonth (setDate ⟨2020, 1, 20, 7, 30, 45⟩ 29) = 1 ∧
     getYear (setDate ⟨2020, 1, 20, 7, 30, 45⟩ 29) = 2020 ∧
     getHours (setDate ⟨2020, 1, 20, 7, 30, 45⟩ 29) = 7 ∧
     getMinutes (setDate ⟨2020, 1, 20, 7, 30, 45⟩ 29) = 30 ∧
     getSeconds (setDate ⟨2020, 1, 20, 7, 30, 45⟩ 29) = 45) :=
  ⟨by decide, c5_setDate_fields ⟨2020, 1, 20, 7, 30, 45⟩ 29 (by decide)
    (by decide)⟩

theorem getEffectiveMinDate_both (mn : DateT) (inc : List DateT) :
    getEffectiveMinDate ⟨some mn, some inc⟩ =
      min (inc.filter fun d => decide (msOfDate mn ≤ msOfDate d)) := by
  show min (inc.filter fun d =>
    decide (0 ≤ differenceInCalendarDays d mn)) = _
  congr 1
  apply List.filter_congr
  intro a _
  rw [decide_eq_decide]
  exact diff_days_nonneg_iff a mn

theorem getEffectiveMaxDate_both (mx : DateT) (inc : List DateT) :
    getEffectiveMaxDate ⟨some mx, some inc⟩ =
      max (inc.filter fun d => decide (msOfDate d ≤ msOfDate mx)) := by
  show max (inc.filter fun d =>
    decide (differenceInCalendarDays d mx ≤ 0)) = _
  congr 1
  apply List.filter_congr
  intro a _
  rw [decide_eq_decide]
  exact diff_days_nonpos_iff a mx

/-- C2 counterexample: the effective-bound resolvers are not total over
well-formed inputs.  With `minDate = 2020-01-10` and the non-empty
`includeDates = [2020-01-05]` (no include-date on/after `minDate`), the
filtered list is empty and the min-reduce is applied to an empty sequence:
no value of type T is produced (`none` models the `reduce` exception).
Symmetrically for `getEffectiveMaxDate`. -/
theorem c2_counterexample :
    getEffectiveMinDate ⟨some d20200110, some [d20200105]⟩ = none ∧
    getEffectiveMaxDate ⟨some d20200105, some [d20200110]⟩ = none := by
  constructor
  · rw [getEffectiveMinDate_both]; decide
  · rw [getEffectiveMaxDate_both]; decide

/-- C2 (amended): `getEffectiveMinDate` and `getEffectiveMaxDate` return a
value of type T for every well-formed config (`includeDates`, when present,
non-empty) in which, additionally, whenever the bound and `includeDates` are
both given at least one include-date lies on/after `minDate` (resp. on/before
`maxDate`); under that proviso the internal min/max reduce is never applied
to an empty sequence. -/
theorem c2_effective_bounds_total :
    (∀ cfg : MinConfig,
      (∀ l, cfg.includeDates = some l → l ≠ []) →
      (∀ l mn, cfg.includeDates = some l → cfg.minDate = some mn →
        ∃ x ∈ l, msOfDate mn ≤ msOfDate x) →
      (getEffectiveMinDate cfg).isSome = true) ∧
    (∀ cfg : MaxConfig,
      (∀ l, cfg.includeDates = some l → l ≠ []) →
      (∀ l mx, cfg.includeDates = some l → cfg.maxDate = some mx →
        ∃ x ∈ l, msOfDate x ≤ msOfDate mx) →
      (getEffectiveMaxDate cfg).isSome = true) := by
  constructor
  · rintro ⟨mn, inc⟩ hne hcompat
    cases inc with
    | none =>
      cases mn with
      | none => rfl
      | some a => rfl
    | some l =>
      cases mn with
      | some a =>
        rw [getEffectiveMinDate_both]
        apply min_isSome
        obtain ⟨x, hx, hxge⟩ := hcompat l a rfl rfl
        intro hempty
        have hmem : x ∈ l.filter fun d =>
            decide (msOfDate a ≤ msOfDate d) := by
          rw [List.mem_filter]
          exact ⟨hx, by simpa using hxge⟩
        rw [hempty] at hmem
        exact absurd hmem (List.not_mem_nil x)
      | none =>
        have hl : l ≠ [] := hne l rfl
        show (if l.length ≠ 0 then min l else some refNow).isSome = true
        rw [if_pos fun h => hl (List.length_eq_zero.mp h)]
        exact min_isSome l hl
  · rintro ⟨mx, inc⟩ hne hcompat
    cases inc with
    | none =>
      cases mx with
      | none => rfl
      | some a => rfl
    | some l =>
      cases mx with
      | some a =>
        rw [getEffectiveMaxDate_both]
        apply max_isSome
        obtain ⟨x, hx, hxle⟩ := hcompat l a rfl rfl
        intro hempty
        have hmem : x ∈ l.filter fun d =>
            decide (msOfDate d ≤ msOfDate a) := by
          rw [List.mem_filter]
          exact ⟨hx, by simpa using hxle⟩
        rw [hempty] at hmem
        exact absurd hmem (List.not_mem_nil x)
      | none =>
        show (max l).isSome = true
        exact max_isSome l (hne l rfl)

/-- C2 witness: both resolvers produce a value on concrete compatible
configs (`minDate = 2020-01-10` with an include-date on/after it; `maxDate =
2020-01-15` with an include-date on/before it). -/
theorem c2_effective_bounds_total_witness :
    (getEffectiveMinDate ⟨some d20200110, some [d20200115]⟩).isSome = true ∧
    (getEffectiveMaxDate ⟨some d20200115, some [d20200110]⟩).isSome = true := by
  constructor
  · exact c2_effective_bounds_total.1 ⟨some d20200110, some [d20200115]⟩
      (fun l h => by rw [← Option.some.inj h]; decide)
      (fun l mn hl hmn => by
        rw [← Option.some.inj hl, ← Option.some.inj hmn]
        exact ⟨d20200115, by decide, by decide⟩)
  · exact c2_effective_bounds_total.2 ⟨some d20200115, some [d20200110]⟩
      (fun l h => by rw [← Option.some.inj h]; decide)
      (fun l mx hl hmx => by
        rw [← Option.some.inj hl, ← Option.some.inj hmx]
        exact ⟨d20200110, by decide, by decide⟩)

/-- C3: when both `minDate` and a non-empty `includeDates` are given and at
least one include-date is on/after `minDate`, `getEffectiveMinDate` returns
the minimum of the include-dates on/after `minDate`; in particular, for
`minDate = 2020-01-10` and `includeDates = [2020-01-05, 2020-01-15,
2020-01-20]` it returns `2020-01-15`. -/
theorem c3_getEffectiveMinDate_min_on_after :
    (∀ (mn : DateT) (l : List DateT),
      (∃ x ∈ l, msOfDate mn ≤ msOfDate x) →
      ∃ m, getEffectiveMinDate ⟨some mn, some l⟩ = some m ∧
        m ∈ l ∧ msOfDate mn ≤ msOfDate m ∧
        ∀ x ∈ l, msOfDate mn ≤ msOfDate x → msOfDate m ≤ msOfDate x) ∧
    getEffectiveMinDate
      ⟨some d20200110, some [d20200105, d20200115, d20200120]⟩ =
      some d20200115 := by
  constructor
  · intro mn l hex
    rw [getEffectiveMinDate_both]
    have hne : l.filter (fun d => decide (msOfDate mn ≤ msOfDate d)) ≠ [] := by
      obtain ⟨x, hx, hge⟩ := hex
      intro hempty
      have hmem : x ∈ l.filter fun d =>
          decide (msOfDate mn ≤ msOfDate d) := by
        rw [List.mem_filter]
        exact ⟨hx, by simpa using hge⟩
      rw [hempty] at hmem
      exact absurd hmem (List.not_mem_nil x)
    obtain ⟨m, l1, l2, hmin, hsplit, hall, hleft⟩ :=
      min_spec (l.filter fun d => decide (msOfDate mn ≤ msOfDate d)) hne
    have hm_mem_f : m ∈ l.filter fun d =>
        decide (msOfDate mn ≤ msOfDate d) := by
      rw [hsplit]
      exact List.mem_append_right l1 (List.mem_cons_self m l2)
    obtain ⟨hm_mem, hm_p⟩ := List.mem_filter.mp hm_mem_f
    refine ⟨m, hmin, hm_mem, by simpa using hm_p, ?_⟩
    intro x hx hgex
    exact hall x (List.mem_filter.mpr ⟨hx, by simpa using hgex⟩)
  · rw [getEffectiveMinDate_both]
    decide

/-- C3 witness: the general statement applied at the spec's concrete
scenario `minDate = 2020-01-10`,
`includeDates = [2020-01-05, 2020-01-15, 2020-01-20]`. -/
theorem c3_getEffectiveMinDate_min_on_after_witness :
    ∃ m, getEffectiveMinDate
        ⟨some d20200110, some [d20200105, d20200115, d20200120]⟩ = some m ∧
      m ∈ [d20200105, d20200115, d20200120] ∧
      msOfDate d20200110 ≤ msOfDate m ∧
      ∀ x ∈ [d20200105, d20200115, d20200120],
        msOfDate d20200110 ≤ msOfDate x → msOfDate m ≤ msOfDate x :=
  c3_getEffectiveMinDate_min_on_after.1 d20200110
    [d20200105, d20200115, d20200120] ⟨d20200115, by decide, by decide⟩

/-- C6: for every non-empty list of dates, `min` returns an element of the
list that is not-after any other element, the leftmost such element when
several are equally earliest (every element strictly to its left is strictly
later); `max` is the symmetric property using is-after. -/
theorem c6_min_max_leftmost (l : List DateT) (hl : l ≠ []) :
    (∃ m l1 l2, min l = some m ∧ l = l1 ++ m :: l2 ∧
      (∀ x ∈ l, msOfDate m ≤ msOfDate x) ∧
      ∀ y ∈ l1, msOfDate m < msOfDate y) ∧
    (∃ m l1 l2, max l = some m ∧ l = l1 ++ m :: l2 ∧
      (∀ x ∈ l, msOfDate x ≤ msOfDate m) ∧
      ∀ y ∈ l1, msOfDate y < msOfDate m) :=
  ⟨min_spec l hl, max_spec l hl⟩

/-- C6 witness: the characterization applied to the concrete non-empty list
`[2020-01-15, 2020-01-05, 2020-01-20]`. -/
theorem c6_min_max_leftmost_witness :
    (∃ m l1 l2,
      min [d20200115, d20200105, d20200120] = some m ∧
      [d20200115, d20200105, d20200120] = l1 ++ m :: l2 ∧
      (∀ x ∈ [d20200115, d20200105, d20200120],
        msOfDate m ≤ msOfDate x) ∧
      ∀ y ∈ l1, msOfDate m < msOfDate y) ∧
    (∃ m l1 l2,
      max [d20200115, d20200105, d20200120] = some m ∧
      [d20200115, d20200105, d20200120] = l1 ++ m :: l2 ∧
      (∀ x ∈ [d20200115, d20200105, d20200120],
        msOfDate x ≤ msOfDate m) ∧
      ∀ y ∈ l1, msOfDate y < msOfDate m) :=
  c6_min_max_leftmost [d20200115, d20200105, d20200120] (by decide)
